import Mathlib

/-!
Verification of the College-notification-job pipeline (src/index.js,
src/database.js) against its specification.

The JavaScript program is shallowly embedded: timestamps parsed from date
strings become `Int` epoch milliseconds, JS `Map`-based deduplication becomes
an association-list fold, Mongo collections become lists of records, and the
outcomes of the external collaborators (network fetch, email delivery, bulk
insert) become explicit parameters of the orchestrator model.
-/

namespace CollegeNotify

/-- A notice record as fetched from the upstream APIs
(`{id, title, date, content}`).  `date` is modelled as the instant the
JS code obtains from `new Date(notice.date)`, in epoch milliseconds. -/
structure Notice where
  id : String
  title : String
  date : Int
  content : String
deriving DecidableEq, Repr

/-- A persisted Known-Sent record (src/database.js `noticeSchema` without the
store-generated `sentAt` timestamp, which no code path reads). -/
structure SavedRecord where
  noticeId : String
  title : String
  date : Int
  url : String
deriving DecidableEq, Repr

/-! ## Regular expressions (embedding of the JS regex literals)

The six regex literals of `ContentFilterStrategy` use only: literal
characters (under the `i` flag), `.` (any character except a line
terminator), `\s` / character star `.*` `\s*`, an optional single character
(`\.?`), alternation, and the word-boundary assertion `\b`.  Every starred
sub-pattern is a single character class, so the matcher below only needs
star over a character class, which keeps it structurally terminating. -/

/-- JS regex `.` without the `s` flag: any character except a line
terminator (LF, CR, LS, PS). -/
def jsDot (c : Char) : Bool :=
  !(c == '\n' || c == '\r' || c == '\u2028' || c == '\u2029')

/-- JS regex `\s`: whitespace character class. -/
def jsWs (c : Char) : Bool :=
  c == ' ' || c == '\t' || c == '\n' || c == '\u000B' || c == '\u000C' ||
  c == '\r' || c == '\u00A0' || c == '\u1680' ||
  (0x2000 ≤ c.toNat && c.toNat ≤ 0x200A) ||
  c == '\u2028' || c == '\u2029' || c == '\u202F' || c == '\u205F' ||
  c == '\u3000' || c == '\uFEFF'

/-- JS regex word character (for `\b`): `[A-Za-z0-9_]`. -/
def jsWordChar (c : Char) : Bool :=
  ('a' ≤ c && c ≤ 'z') || ('A' ≤ c && c ≤ 'Z') || ('0' ≤ c && c ≤ '9') || c == '_'

/-- Regex abstract syntax sufficient for the six patterns: empty, a single
character class, concatenation, alternation, star of a character class, and
the word-boundary assertion. -/
inductive Re where
  | eps : Re
  | cls : (Char → Bool) → Re
  | seq : Re → Re → Re
  | alt : Re → Re → Re
  | starCls : (Char → Bool) → Re
  | wordB : Re

/-- End positions reachable from position `i` by consuming zero or more
characters of the suffix `rest` that satisfy `p`. -/
def starEndsGo (p : Char → Bool) : List Char → Nat → List Nat
  | [], i => [i]
  | c :: rest, i => if p c then i :: starEndsGo p rest (i + 1) else [i]

/-- End positions reachable by consuming zero or more `p`-characters from
position `i` of `s`. -/
def starEnds (p : Char → Bool) (s : List Char) (i : Nat) : List Nat :=
  starEndsGo p (s.drop i) i

/-- Word-boundary test at position `i` of `s` (JS `\b`): the positions just
before and just after `i` disagree on word-character-ness, out-of-range
counting as non-word. -/
def atWordBoundary (s : List Char) (i : Nat) : Bool :=
  let before := match i, s with
    | 0, _ => false
    | j + 1, _ => match s[j]? with
      | some c => jsWordChar c
      | none => false
  let after := match s[i]? with
    | some c => jsWordChar c
    | none => false
  before != after

/-- All end positions of matches of `r` starting at position `i` of `s`.
Duplicates are pruned so the lists stay linear in `s.length`. -/
def ends : Re → List Char → Nat → List Nat
  | .eps, _, i => [i]
  | .cls p, s, i =>
    if h : i < s.length then
      if p (s.get ⟨i, h⟩) then [i + 1] else []
    else []
  | .seq a b, s, i => (((ends a s i).map (fun j => ends b s j)).flatten).dedup
  | .alt a b, s, i => (ends a s i ++ ends b s i).dedup
  | .starCls p, s, i => starEnds p s i
  | .wordB, s, i => if atWordBoundary s i then [i] else []

/-- JS `regex.test(title)`: an (unanchored) match exists somewhere in the
string. -/
def retest (r : Re) (title : String) : Bool :=
  let s := title.data
  (List.range (s.length + 1)).any (fun i => !(ends r s i).isEmpty)

/-- Case-insensitive single literal character (the `i` flag canonicalises
case, here via ASCII lower-casing; `c` is given in lower case). -/
def lit1 (c : Char) : Re := .cls (fun x => x.toLower == c)

/-- Case-insensitive literal string. -/
def lit (w : String) : Re := w.data.foldr (fun c r => .seq (lit1 c) r) .eps

/-- JS `.*`. -/
def dotStar : Re := .starCls jsDot

/-- JS `\s*`. -/
def wsStar : Re := .starCls jsWs

/-- JS `x?`: optional. -/
def reopt (r : Re) : Re := .alt r .eps

/-- Three-way alternation helper. -/
def alt3 (a b c : Re) : Re := .alt a (.alt b c)

/-- The group `(6th|VI\b|Sixth)` appearing in two critical patterns. -/
def sixthGroup : Re := alt3 (lit "6th") (.seq (lit "vi") .wordB) (lit "sixth")

/-- JS `/BTU.*Exam.*Form.*VI\s*Sem/i`. -/
def reBtuExamForm : Re :=
  .seq (lit "btu") (.seq dotStar (.seq (lit "exam") (.seq dotStar
    (.seq (lit "form") (.seq dotStar (.seq (lit "vi") (.seq wsStar (lit "sem"))))))))

/-- JS `/B\.?Tech.*(6th|VI\b|Sixth)\s*Sem/i`. -/
def reBTechSixthSem : Re :=
  .seq (lit "b") (.seq (reopt (lit ".")) (.seq (lit "tech") (.seq dotStar
    (.seq sixthGroup (.seq wsStar (lit "sem"))))))

/-- JS `/Even\s*Sem.*Exam/i`. -/
def reEvenSemExam : Re :=
  .seq (lit "even") (.seq wsStar (.seq (lit "sem") (.seq dotStar (lit "exam"))))

/-- JS `/(Exam|Form|Fee).*?(6th|VI\b|Sixth)/i` (laziness of `.*?` is
irrelevant for a boolean `test`). -/
def reExamFormFeeSixth : Re :=
  .seq (alt3 (lit "exam") (lit "form") (lit "fee")) (.seq dotStar sixthGroup)

/-- `this.CRITICAL_PATTERNS` of `ContentFilterStrategy`. -/
def CRITICAL_PATTERNS : List Re :=
  [reBtuExamForm, reBTechSixthSem, reEvenSemExam, reExamFormFeeSixth]

/-- `this.GENERIC_EXAM_FORM`: JS `/Exam.*Form/i`. -/
def GENERIC_EXAM_FORM : Re := .seq (lit "exam") (.seq dotStar (lit "form"))

/-- `this.EXCLUDE_SEMESTERS`: JS
`/(1st|3rd|5th|7th|I\s*Sem|III\s*Sem|V\s*Sem|VII\s*Sem)/i`. -/
def EXCLUDE_SEMESTERS : Re :=
  .alt (lit "1st") (.alt (lit "3rd") (.alt (lit "5th") (.alt (lit "7th")
    (.alt (.seq (lit "i") (.seq wsStar (lit "sem")))
      (.alt (.seq (lit "iii") (.seq wsStar (lit "sem")))
        (.alt (.seq (lit "v") (.seq wsStar (lit "sem")))
          (.seq (lit "vii") (.seq wsStar (lit "sem")))))))))

namespace ContentFilterStrategy

/-- `ContentFilterStrategy.check` (src/index.js lines 46-55) applied to the
notice's title. -/
def check (title : String) : Bool :=
  let explicitMatch := CRITICAL_PATTERNS.any (fun regex => retest regex title)
  let isGenericUrgent := retest GENERIC_EXAM_FORM title && !(retest EXCLUDE_SEMESTERS title)
  if explicitMatch || isGenericUrgent then true else false

end ContentFilterStrategy

example : ContentFilterStrategy.check "Holiday Notice: Holi Festival" = false := by decide

/-! ## Time filter -/

/-- Default of `Config.NOTICE_AGE_LIMIT_HOURS`:
`parseInt(process.env.NOTICE_AGE_LIMIT_HOURS || '24', 10)` when the
environment variable is unset. -/
def noticeAgeLimitHours (envVal : Option Int) : Int := envVal.getD 24

/-- `TimeFilterStrategy` instance state: the single `cutoffDate` computed in
the constructor. -/
structure TimeFilterStrategy where
  cutoffDate : Int
deriving DecidableEq, Repr

namespace TimeFilterStrategy

/-- The constructor (src/index.js lines 24-27):
`this.cutoffDate = new Date(Date.now() - hours * 60 * 60 * 1000)`, with
`now` the construction instant in epoch milliseconds. -/
def construct (now : Int) (hours : Int) : TimeFilterStrategy :=
  ⟨now - hours * 60 * 60 * 1000⟩

/-- `TimeFilterStrategy.check` (src/index.js lines 29-31):
`new Date(notice.date) >= this.cutoffDate`.  The stored cutoff is the only
time the comparison reads; `check` takes no clock argument. -/
def check (f : TimeFilterStrategy) (n : Notice) : Bool :=
  f.cutoffDate ≤ n.date

end TimeFilterStrategy

/-! ## Persistence strategy (MongoPersistenceStrategy over a list-modelled
collection) -/

/-- The record built by `saveSentNotices` for a notice:
`{noticeId: String(n.id), title: n.title, date: n.date, url: n.content}`. -/
def mkRecord (n : Notice) : SavedRecord :=
  { noticeId := n.id, title := n.title, date := n.date, url := n.content }

/-- State of a `MongoPersistenceStrategy` together with the Mongo
collection it talks to: `existingIds` is the in-memory JS `Set` (a list with
membership semantics) and `store` is the `notices` collection. -/
structure PersistState where
  existingIds : List String
  store : List SavedRecord
deriving DecidableEq, Repr

/-- Outcome of the `Notice.insertMany(operations, { ordered: false })` call,
chosen by the environment: either every record is inserted, or the call
throws after having inserted some sublist of the records. -/
inductive BulkInsertOutcome where
  | success : BulkInsertOutcome
  | failure : List SavedRecord → BulkInsertOutcome
deriving DecidableEq, Repr

namespace PersistState

/-- `MongoPersistenceStrategy.preload` (src/index.js lines 67-72): on an
empty input return unchanged; otherwise replace `existingIds` by the
`noticeId`s of the stored documents whose `noticeId` is among the ids of
the given notices (the `$in` query). -/
def preload (st : PersistState) (notices : List Notice) : PersistState :=
  if notices.length = 0 then st
  else
    let idsToCheck := notices.map (fun n => n.id)
    let existingDocs := st.store.filter (fun doc => idsToCheck.contains doc.noticeId)
    { st with existingIds := existingDocs.map (fun doc => doc.noticeId) }

/-- `MongoPersistenceStrategy.check` (src/index.js lines 74-76):
`!this.existingIds.has(String(notice.id))`. -/
def check (st : PersistState) (notice : Notice) : Bool :=
  !(st.existingIds.contains notice.id)

/-- `MongoPersistenceStrategy.saveSentNotices` (src/index.js lines 78-94).
On an empty batch it returns immediately.  Otherwise it bulk-inserts the
mapped records; only when the insert succeeds are the batch ids added to
`existingIds`.  A thrown insert error is caught and logged, so the function
always returns normally — on failure the store has gained whatever sublist
the unordered bulk insert managed to write, and `existingIds` is untouched. -/
def saveSentNotices (st : PersistState) (notices : List Notice)
    (outcome : BulkInsertOutcome) : PersistState :=
  if notices.length = 0 then st
  else
    let operations := notices.map mkRecord
    match outcome with
    | .success =>
      { existingIds := st.existingIds ++ notices.map (fun n => n.id),
        store := st.store ++ operations }
    | .failure inserted =>
      { st with store := st.store ++ inserted }

end PersistState

/-! ## Source adapter: merge and deduplicate (NoticeMonitor.fetchNotices) -/

/-- One `Map.set(k, v)` step of `new Map(allNotices.map(item => [item.id,
item]))`: if the key is present, the value at the original position is
replaced (insertion order kept); otherwise the pair is appended. -/
def mapSet (m : List (String × Notice)) (k : String) (v : Notice) :
    List (String × Notice) :=
  if m.any (fun p => p.1 = k) then
    m.map (fun p => if p.1 = k then (p.1, v) else p)
  else m ++ [(k, v)]

/-- `NoticeMonitor.fetchNotices` (src/index.js lines 160-168) after the two
HTTP bodies have been obtained: concatenate the news list and the exam list,
build the id-keyed JS `Map`, and return its values in insertion order. -/
def fetchNotices (news exam : List Notice) : List Notice :=
  let allNotices := news ++ exam
  (allNotices.foldl (fun m item => mapSet m item.id item) []).map (fun p => p.2)

/-! ## Sort by date (the orchestrator's
`uniqueNotices.sort((a, b) => new Date(a.date) - new Date(b.date))`,
a stable ascending sort on the parsed date) -/

/-- Insert a notice after every already-placed notice of smaller-or-equal
date (stability: an element inserted later goes after equals). -/
def insertByDate (n : Notice) : List Notice → List Notice
  | [] => [n]
  | m :: rest =>
    if m.date ≤ n.date then m :: insertByDate n rest else n :: m :: rest

/-- Stable ascending insertion sort on `date`. -/
def sortByDate (l : List Notice) : List Notice :=
  l.foldl (fun acc n => insertByDate n acc) []

/-! ## Filter chain (NoticeMonitor.applyFilters) -/

/-- The inner strategy loop of `applyFilters` (src/index.js lines 173-180):
check strategies in order, stopping at the first rejection. -/
def checkAll : List (Notice → Bool) → Notice → Bool
  | [], _ => true
  | s :: rest, n => if s n then checkAll rest n else false

/-- Instrumented variant of the same loop that also counts how many
strategy `check`s were invoked for the notice. -/
def checkAllCount : List (Notice → Bool) → Notice → Bool × Nat
  | [], _ => (true, 0)
  | s :: rest, n =>
    if s n then
      let r := checkAllCount rest n
      (r.1, r.2 + 1)
    else (false, 1)

/-- `NoticeMonitor.applyFilters` (src/index.js lines 170-186): keep exactly
the notices every strategy approves, in input order. -/
def applyFilters (strategies : List (Notice → Bool)) : List Notice → List Notice
  | [] => []
  | n :: rest =>
    if checkAll strategies n then n :: applyFilters strategies rest
    else applyFilters strategies rest

/-! ## Orchestrator (NoticeMonitor.run, production wiring of src/index.js
lines 108-158 and 246-262)

The collaborators' behaviour is part of the environment: `news`/`exam` are
`none` when the corresponding HTTP fetch rejects, `initOk` is whether
`connectDB` succeeds, `sendOk` is whether the email provider accepts the
send, and `saveOutcome` is the bulk-insert behaviour of the store.

JS control-flow notes reflected below:
* a `return` inside `try` still runs the `finally` block, so the seed-mode
  early return performs cleanup;
* `process.exit(1)` inside the `catch` block terminates the process
  immediately — the `finally` block does NOT run on any error path. -/

structure Env where
  initOk : Bool
  news : Option (List Notice)
  exam : Option (List Notice)
  store : List SavedRecord
  seedMode : Bool
  testMode : Bool
  sendOk : Bool
  saveOutcome : BulkInsertOutcome
  now : Int
  ageLimitHours : Int
deriving DecidableEq, Repr

/-- Observable outcome of one `run()` invocation. -/
structure RunResult where
  exit : Option Nat
  cleanupRan : Bool
  notifyInvoked : Bool
  emailSent : Bool
  relevantComputed : Bool
  saveInvoked : Bool
  finalStore : List SavedRecord
deriving DecidableEq, Repr

namespace NoticeMonitor

/-- `NoticeMonitor.run` under the production wiring of the entry point:
`strategies = TEST_MODE ? [] : [TimeFilterStrategy, mongoPersistence]`,
persistence always present. -/
def run (env : Env) : RunResult :=
  if env.initOk = false then
    -- connectDB threw: catch logs, process.exit(1) pre-empts the finally
    { exit := some 1, cleanupRan := false, notifyInvoked := false,
      emailSent := false, relevantComputed := false, saveInvoked := false,
      finalStore := env.store }
  else
    match env.news, env.exam with
    | some newsData, some examData =>
      let uniqueNotices := fetchNotices newsData examData
      let sorted := sortByDate uniqueNotices
      let st1 := PersistState.preload { existingIds := [], store := env.store } sorted
      if env.seedMode then
        let noticesToSeed := sorted.filter (fun n => !(st1.existingIds.contains n.id))
        let st2 :=
          if noticesToSeed.length > 0 then
            PersistState.saveSentNotices st1 noticesToSeed env.saveOutcome
          else st1
        -- return inside try: the finally block still runs cleanup
        { exit := none, cleanupRan := true, notifyInvoked := false,
          emailSent := false, relevantComputed := false,
          saveInvoked := noticesToSeed.length > 0, finalStore := st2.store }
      else
        let tf := TimeFilterStrategy.construct env.now env.ageLimitHours
        let strategies : List (Notice → Bool) :=
          if env.testMode then [] else [tf.check, st1.check]
        let relevantNotices := applyFilters strategies sorted
        if relevantNotices.length > 0 then
          if env.sendOk then
            let st2 :=
              if !env.testMode then
                PersistState.saveSentNotices st1 relevantNotices env.saveOutcome
              else st1
            { exit := none, cleanupRan := true, notifyInvoked := true,
              emailSent := true, relevantComputed := true,
              saveInvoked := !env.testMode, finalStore := st2.store }
          else
            -- sendEmail rethrew: catch logs, process.exit(1) pre-empts finally
            { exit := some 1, cleanupRan := false, notifyInvoked := true,
              emailSent := false, relevantComputed := true,
              saveInvoked := false, finalStore := st1.store }
        else
          { exit := none, cleanupRan := true, notifyInvoked := false,
            emailSent := false, relevantComputed := true,
            saveInvoked := false, finalStore := st1.store }
    | _, _ =>
      -- axios fetch rejected: catch logs, process.exit(1) pre-empts finally
      { exit := some 1, cleanupRan := false, notifyInvoked := false,
        emailSent := false, relevantComputed := false, saveInvoked := false,
        finalStore := env.store }

end NoticeMonitor

/-! ## Shared concrete inputs for witnesses -/

/-- A sample notice used by several witnesses. -/
def nA : Notice := { id := "1", title := "t", date := 0, content := "c" }

/-- A recent, not-yet-known notice used by run-model witnesses. -/
def nFresh : Notice :=
  { id := "42", title := "General Circular", date := 1000, content := "x.pdf" }

/-- First entry of the association list with the given key. -/
def lookupK (m : List (String × Notice)) (k : String) : Option (String × Notice) :=
  m.find? (fun p => p.1 = k)

/-- Two notices used by the C3 witness: the same id appearing in both
source lists with different payloads. -/
def nDup1 : Notice := { id := "7", title := "news copy", date := 1, content := "a" }

/-- Second record with the duplicated id (in the exam list). -/
def nDup2 : Notice := { id := "7", title := "exam copy", date := 2, content := "b" }

/-- The persistence state after the run's preload step. -/
def preStateOf (env : Env) (newsData examData : List Notice) : PersistState :=
  PersistState.preload { existingIds := [], store := env.store }
    (sortByDate (fetchNotices newsData examData))

/-- The strategy list the entry point wires up (empty in test mode). -/
def strategiesOf (env : Env) (newsData examData : List Notice) :
    List (Notice → Bool) :=
  if env.testMode then []
  else [(TimeFilterStrategy.construct env.now env.ageLimitHours).check,
        (preStateOf env newsData examData).check]

/-- The run's relevant set (normal mode). -/
def relevantOf (env : Env) (newsData examData : List Notice) : List Notice :=
  applyFilters (strategiesOf env newsData examData)
    (sortByDate (fetchNotices newsData examData))

/-- The run's seed list: fetched notices not yet known after preload. -/
def seedList (env : Env) (newsData examData : List Notice) : List Notice :=
  (sortByDate (fetchNotices newsData examData)).filter
    (fun n => !((preStateOf env newsData examData).existingIds.contains n.id))

/-- The environment of a follow-up run: same configuration and upstream
data, the store as the first run left it, a later clock. -/
def envSecond (env : Env) (store2 : List SavedRecord) (now2 : Int) : Env :=
  { env with store := store2, now := now2 }

/-- An always-accepting strategy, for the C4 witness. -/
def predAccept : Notice → Bool := fun _ => true

/-- An always-rejecting strategy, for the C4 witness. -/
def predReject : Notice → Bool := fun _ => false

/-- Environment whose upstream news fetch rejects. -/
def envFetchFail : Env :=
  { initOk := true, news := none, exam := some [], store := [],
    seedMode := false, testMode := false, sendOk := true,
    saveOutcome := .success, now := 0, ageLimitHours := 24 }

/-- Environment whose store connection fails at init. -/
def envInitFail : Env := { envFetchFail with initOk := false }

/-- Environment in which every step succeeds (empty upstream lists). -/
def envAllOk : Env := { envFetchFail with news := some [], exam := some [] }

/-- Environment with one fresh relevant notice whose email delivery fails. -/
def envSendFail : Env :=
  { envFetchFail with news := some [nFresh], exam := some [], sendOk := false }

/-- Environment for the failed-send witness: one fresh relevant notice,
delivery rejected. -/
def envSendFailC7 : Env := { envSendFail with exam := some [] }

/-- Environment for the seed-mode witness: two fresh notices fetched. -/
def envSeed : Env :=
  { initOk := true, news := some [nFresh], exam := some [nA], store := [],
    seedMode := true, testMode := false, sendOk := true,
    saveOutcome := .success, now := 0, ageLimitHours := 24 }

/-- Environment for the idempotence witness: one fresh relevant notice,
everything succeeding. -/
def envTwice : Env :=
  { initOk := true, news := some [nFresh], exam := some [], store := [],
    seedMode := false, testMode := false, sendOk := true,
    saveOutcome := .success, now := 0, ageLimitHours := 24 }

/-! ## Theorems -/

/-- C1: `ContentFilterStrategy.check` classifies a title critical iff it
matches one of the four explicit critical patterns, or matches the generic
exam-form pattern while not matching the excluded-semester pattern; an
explicit match wins regardless of the exclusion pattern, and a title
matching neither tier is not critical. -/
theorem contentFilter_critical_iff (title : String) :
    (ContentFilterStrategy.check title = true ↔
      CRITICAL_PATTERNS.any (fun regex => retest regex title) = true ∨
        (retest GENERIC_EXAM_FORM title = true ∧
          retest EXCLUDE_SEMESTERS title = false)) ∧
    (CRITICAL_PATTERNS.any (fun regex => retest regex title) = true →
      ContentFilterStrategy.check title = true) ∧
    (CRITICAL_PATTERNS.any (fun regex => retest regex title) = false →
      retest GENERIC_EXAM_FORM title = false →
      ContentFilterStrategy.check title = false) := by
  unfold ContentFilterStrategy.check
  cases h1 : CRITICAL_PATTERNS.any (fun regex => retest regex title) <;>
    cases h2 : retest GENERIC_EXAM_FORM title <;>
      cases h3 : retest EXCLUDE_SEMESTERS title <;> simp

/-- Witness for C1 at the repository's own best-case mock title, which
matches both an explicit critical pattern and the exclusion pattern. -/
theorem contentFilter_critical_iff_witness :
    ContentFilterStrategy.check "Urgent: Exam Form for B.Tech VI Sem (Main) 2025" = true :=
  (contentFilter_critical_iff "Urgent: Exam Form for B.Tech VI Sem (Main) 2025").2.1
    (by decide)

/-- C5: the time filter keeps a notice iff its parsed date is at least the
cutoff, the cutoff stored at construction is the construction instant minus
the configured hour limit (defaulting to 24 when unset), the boundary is
inclusive, and strictly older notices are dropped.  `check` reads only the
stored `cutoffDate` field; it takes no clock input, so the cutoff is fixed
at construction for every later check. -/
theorem timeFilter_cutoff_spec (now hours : Int) (n : Notice) :
    ((TimeFilterStrategy.construct now hours).check n = true ↔
      now - hours * 60 * 60 * 1000 ≤ n.date) ∧
    (TimeFilterStrategy.construct now hours).cutoffDate =
      now - hours * 60 * 60 * 1000 ∧
    (n.date = now - hours * 60 * 60 * 1000 →
      (TimeFilterStrategy.construct now hours).check n = true) ∧
    (n.date < now - hours * 60 * 60 * 1000 →
      (TimeFilterStrategy.construct now hours).check n = false) ∧
    noticeAgeLimitHours none = 24 := by
  refine ⟨?_, rfl, fun h => ?_, fun h => ?_, rfl⟩
  · simp [TimeFilterStrategy.check, TimeFilterStrategy.construct]
  · simp [TimeFilterStrategy.check, TimeFilterStrategy.construct, h]
  · simp only [TimeFilterStrategy.check, TimeFilterStrategy.construct,
      decide_eq_false_iff_not]
    omega

/-- Witness for C5: a notice dated exactly at the cutoff is kept. -/
theorem timeFilter_cutoff_spec_witness :
    (TimeFilterStrategy.construct 0 24).check
      { id := "1", title := "t", date := -86400000, content := "c" } = true :=
  (timeFilter_cutoff_spec 0 24
    { id := "1", title := "t", date := -86400000, content := "c" }).2.2.1 (by decide)

/-! Concrete environments for the orchestrator theorems. -/

/-- C2 (code bug): the spec says store cleanup always runs as a finalizer,
but `process.exit(1)` inside the `catch` block terminates the Node process
immediately, before the `finally` block, so on every failing run (init
failure, fetch failure, delivery failure) `disconnectDB` is never executed.
Cleanup does run on successful runs. -/
theorem run_cleanup_not_a_finalizer :
    (NoticeMonitor.run envFetchFail).exit = some 1 ∧
    (NoticeMonitor.run envFetchFail).cleanupRan = false ∧
    (NoticeMonitor.run envInitFail).cleanupRan = false ∧
    (NoticeMonitor.run envSendFail).cleanupRan = false ∧
    (NoticeMonitor.run envAllOk).cleanupRan = true := by decide

/-- A non-empty preload replaces the membership set by the ids of the
stored documents matched by the `$in` query. -/
theorem preload_existingIds (st : PersistState) (ns : List Notice)
    (hne : ns ≠ []) :
    (st.preload ns).existingIds =
      (st.store.filter
        (fun doc => (ns.map (fun n => n.id)).contains doc.noticeId)).map
        (fun doc => doc.noticeId) := by
  have hlen : ¬ ns.length = 0 := by simpa [List.length_eq_zero] using hne
  unfold PersistState.preload
  rw [if_neg hlen]

/-- `preload` only reads the store. -/
theorem preload_store (st : PersistState) (ns : List Notice) :
    (st.preload ns).store = st.store := by
  unfold PersistState.preload
  split <;> rfl

/-- C10: on a failed bulk insert `saveSentNotices` returns normally with the
error swallowed, no id of the batch enters the in-memory membership set
(even ids whose records the unordered insert did write), so a later `check`
in the same run returns true for a notice whose record is in the store. -/
theorem saveSentNotices_failure_swallowed (st : PersistState) (ns : List Notice)
    (inserted : List SavedRecord) (n : Notice)
    (hne : ns ≠ [])
    (hmem : mkRecord n ∈ inserted)
    (hunk : st.existingIds.contains n.id = false) :
    (st.saveSentNotices ns (.failure inserted)).existingIds = st.existingIds ∧
    (st.saveSentNotices ns (.failure inserted)).store = st.store ++ inserted ∧
    mkRecord n ∈ (st.saveSentNotices ns (.failure inserted)).store ∧
    (st.saveSentNotices ns (.failure inserted)).check n = true := by
  have hlen : ¬ ns.length = 0 := by simpa [List.length_eq_zero] using hne
  have hst : st.saveSentNotices ns (.failure inserted) =
      { st with store := st.store ++ inserted } := by
    unfold PersistState.saveSentNotices
    rw [if_neg hlen]
  rw [hst]
  refine ⟨rfl, rfl, List.mem_append_right _ hmem, ?_⟩
  unfold PersistState.check
  rw [show ({ st with store := st.store ++ inserted } : PersistState).existingIds
      = st.existingIds from rfl, hunk]
  rfl

/-- Witness for C10: a one-notice batch whose insert was written to the
store before the bulk call reported failure. -/
theorem saveSentNotices_failure_swallowed_witness :
    (PersistState.saveSentNotices ⟨[], []⟩ [nA] (.failure [mkRecord nA])).check nA = true :=
  (saveSentNotices_failure_swallowed ⟨[], []⟩ [nA] [mkRecord nA] nA
    (by decide) (by decide) (by decide)).2.2.2

/-- Counterexample to C6 as stated: `saveSentNotices([n])` completes (its
thrown insert error is caught and logged) yet the subsequent `check` for the
same id returns true, because ids are only added to the membership set when
the insert succeeds. -/
theorem persistence_check_after_completed_failed_save :
    PersistState.check
      (PersistState.saveSentNotices ⟨[], []⟩ [nA] (.failure [])) nA = true := by
  decide

/-- C6 (amended): after `saveSentNotices([n])` completes with a successful
bulk insert, a `check(n)` in the same run returns false, the store holds
`n`'s record, and in a later run whose preload covers a fetched list
containing `n` over a store containing `n`'s record, `check(n)` returns
false. -/
theorem persistence_save_success_then_check (st st2 : PersistState) (n : Notice)
    (laterRun : List Notice)
    (hmem : mkRecord n ∈ st2.store) (hn : n ∈ laterRun) :
    (st.saveSentNotices [n] .success).check n = false ∧
    mkRecord n ∈ (st.saveSentNotices [n] .success).store ∧
    (st2.preload laterRun).check n = false := by
  have hsv : st.saveSentNotices [n] .success =
      PersistState.mk (st.existingIds ++ [n].map (fun m => m.id))
        (st.store ++ [n].map mkRecord) := by
    unfold PersistState.saveSentNotices
    rfl
  refine ⟨?_, ?_, ?_⟩
  · rw [hsv]
    show (!(st.existingIds ++ [n].map (fun m => m.id)).contains n.id) = false
    have hc : (st.existingIds ++ [n].map (fun m => m.id)).contains n.id = true :=
      List.elem_iff.mpr (List.mem_append_right _ (List.mem_singleton.mpr rfl))
    rw [hc]
    rfl
  · rw [hsv]
    exact List.mem_append_right _ (List.mem_singleton.mpr rfl)
  · unfold PersistState.check
    rw [preload_existingIds st2 laterRun (List.ne_nil_of_mem hn)]
    have hin : (laterRun.map (fun m => m.id)).contains (mkRecord n).noticeId = true :=
      List.elem_iff.mpr (List.mem_map_of_mem _ hn)
    have hdoc : mkRecord n ∈ st2.store.filter
        (fun doc => (laterRun.map (fun m => m.id)).contains doc.noticeId) :=
      List.mem_filter.mpr ⟨hmem, hin⟩
    have hmm : ((st2.store.filter
        (fun doc => (laterRun.map (fun m => m.id)).contains doc.noticeId)).map
          (fun doc => doc.noticeId)).contains n.id = true :=
      List.elem_iff.mpr (List.mem_map_of_mem _ hdoc)
    rw [hmm]
    rfl

/-- Witness for C6's amended theorem: save then check in-run, and a
second-run preload over a store holding the record. -/
theorem persistence_save_success_then_check_witness :
    PersistState.check
      (PersistState.saveSentNotices ⟨[], []⟩ [nA] .success) nA = false ∧
    PersistState.check
      (PersistState.preload ⟨[], [mkRecord nA]⟩ [nA]) nA = false :=
  let h := persistence_save_success_then_check ⟨[], []⟩ ⟨[], [mkRecord nA]⟩ nA [nA]
    (by decide) (by decide)
  ⟨h.1, h.2.2⟩

/-! Helper lemmas for the merge-deduplication map. -/

/-- On a map containing key `k`, the value update leaves lookup of `k` at
the new value (the kept key equals `k`). -/
theorem find?_map_self (m : List (String × Notice)) (k : String) (v : Notice)
    (hany : m.any (fun p => decide (p.1 = k)) = true) :
    (m.map (fun p => if p.1 = k then (p.1, v) else p)).find?
      (fun p => decide (p.1 = k)) = some (k, v) := by
  induction m with
  | nil => simp at hany
  | cons p m ih =>
    by_cases hp : p.1 = k
    · rw [List.map_cons, if_pos hp, List.find?_cons_of_pos _ (by simpa using hp), hp]
    · have hany2 : m.any (fun q => decide (q.1 = k)) = true := by
        rcases List.any_eq_true.mp hany with ⟨q, hq, hdq⟩
        rcases List.mem_cons.mp hq with rfl | hq2
        · exact absurd (of_decide_eq_true hdq) hp
        · exact List.any_eq_true.mpr ⟨q, hq2, hdq⟩
      rw [List.map_cons, if_neg hp, List.find?_cons_of_neg _ (by simpa using hp)]
      exact ih hany2

/-- Setting a key makes lookup of that key return the new value (the kept
key is the originally-inserted one, equal to `k`). -/
theorem lookupK_mapSet_self (m : List (String × Notice)) (k : String) (v : Notice) :
    lookupK (mapSet m k v) k = some (k, v) := by
  unfold lookupK mapSet
  split
  case isTrue h => exact find?_map_self m k v h
  case isFalse h =>
    rw [List.find?_append]
    have hnone : List.find? (fun p => decide (p.1 = k)) m = none :=
      List.find?_eq_none.mpr (fun x hx hdx => h (List.any_eq_true.mpr ⟨x, hx, hdx⟩))
    rw [hnone, Option.none_or]
    simp

/-- Updating the value at key `k1` does not disturb lookups of a different
key. -/
theorem find?_map_update (m : List (String × Notice)) (k1 k : String) (v : Notice)
    (hne : ¬ k1 = k) :
    (m.map (fun p => if p.1 = k1 then (p.1, v) else p)).find?
        (fun p => decide (p.1 = k)) =
      m.find? (fun p => decide (p.1 = k)) := by
  induction m with
  | nil => rfl
  | cons p m ih =>
    by_cases hpk1 : p.1 = k1
    · have hpk : ¬ p.1 = k := fun hpk => hne (hpk1 ▸ hpk)
      rw [List.map_cons, if_pos hpk1, List.find?_cons_of_neg _ (by simpa using hpk),
        List.find?_cons_of_neg _ (by simpa using hpk), ih]
    · by_cases hpk : p.1 = k
      · rw [List.map_cons, if_neg hpk1, List.find?_cons_of_pos _ (by simpa using hpk),
          List.find?_cons_of_pos _ (by simpa using hpk)]
      · rw [List.map_cons, if_neg hpk1, List.find?_cons_of_neg _ (by simpa using hpk),
          List.find?_cons_of_neg _ (by simpa using hpk), ih]

/-- Setting key `k1` does not disturb lookups of a different key. -/
theorem lookupK_mapSet_ne (m : List (String × Notice)) (k1 : String) (v : Notice)
    (k : String) (hne : ¬ k1 = k) :
    lookupK (mapSet m k1 v) k = lookupK m k := by
  unfold mapSet lookupK
  split
  · exact find?_map_update m k1 k v hne
  · rw [List.find?_append]
    have hnone : List.find? (fun p => decide (p.1 = k)) [(k1, v)] = none := by
      simp [List.find?_cons, hne]
    rw [hnone, Option.or_none]

/-- What the JS `Map` built by folding `mapSet` holds at a key: the LAST
notice of the folded list with that id, or whatever the initial map held. -/
theorem lookupK_foldl_mapSet (l : List Notice) (m : List (String × Notice))
    (k : String) :
    lookupK (l.foldl (fun acc item => mapSet acc item.id item) m) k =
      ((l.reverse.find? (fun item => decide (item.id = k))).map
        (fun item => (k, item))).or (lookupK m k) := by
  induction l generalizing m with
  | nil => simp
  | cons n l ih =>
    rw [List.foldl_cons, ih, List.reverse_cons, List.find?_append]
    cases hfind : l.reverse.find? (fun item => decide (item.id = k)) with
    | some x => rfl
    | none =>
      by_cases hk : n.id = k
      · have hpos : List.find? (fun item => decide (item.id = k)) [n] = some n :=
          List.find?_cons_of_pos _ (by simpa using hk)
        rw [hpos, show mapSet m n.id n = mapSet m k n by rw [hk],
          lookupK_mapSet_self m k n]
        rfl
      · have hneg : List.find? (fun item => decide (item.id = k)) [n] = none :=
          List.find?_cons_of_neg _ (by simpa using hk)
        rw [hneg, lookupK_mapSet_ne m n.id n k hk]
        rfl

/-- The keys of `mapSet m k v`: unchanged when `k` was present, extended by
`k` otherwise. -/
theorem mapSet_keys (m : List (String × Notice)) (k : String) (v : Notice) :
    (mapSet m k v).map (fun p => p.1) =
      if m.any (fun p => decide (p.1 = k)) then m.map (fun p => p.1)
      else m.map (fun p => p.1) ++ [k] := by
  unfold mapSet
  split
  case isTrue h =>
    rw [List.map_map]
    exact List.map_congr_left (fun p _ => by by_cases hp : p.1 = k <;> simp [hp])
  case isFalse h =>
    rw [List.map_append]
    rfl

/-- Folding `mapSet` from a map with distinct keys keeps the keys
distinct. -/
theorem foldl_mapSet_keys_nodup (l : List Notice) (m : List (String × Notice))
    (hm : (m.map (fun p => p.1)).Nodup) :
    ((l.foldl (fun acc item => mapSet acc item.id item) m).map
      (fun p => p.1)).Nodup := by
  induction l generalizing m with
  | nil => exact hm
  | cons n l ih =>
    rw [List.foldl_cons]
    apply ih
    rw [mapSet_keys]
    split
    · exact hm
    case isFalse hany =>
      refine List.Nodup.append hm (List.nodup_singleton _) ?_
      intro a ha hb
      rcases List.mem_map.mp ha with ⟨p, hp, hpa⟩
      have hmem := List.mem_singleton.mp hb
      apply hany
      exact List.any_eq_true.mpr ⟨p, hp, decide_eq_true (by rw [hpa, hmem])⟩

/-- Every entry of the folded map pairs an id with a notice carrying that
id. -/
theorem mapSet_keyval (m : List (String × Notice)) (k : String) (v : Notice)
    (hm : ∀ p ∈ m, p.2.id = p.1) (hv : v.id = k) :
    ∀ p ∈ mapSet m k v, p.2.id = p.1 := by
  intro p hp
  unfold mapSet at hp
  split at hp
  · rcases List.mem_map.mp hp with ⟨q, hq, hEq⟩
    by_cases hqk : q.1 = k
    · rw [← hEq]
      simp only [if_pos hqk]
      exact hv.trans hqk.symm
    · rw [← hEq]
      simp only [if_neg hqk]
      exact hm q hq
  · rcases List.mem_append.mp hp with h | h
    · exact hm p h
    · rw [List.mem_singleton.mp h]
      exact hv

/-- Fold version of `mapSet_keyval`. -/
theorem foldl_mapSet_keyval (l : List Notice) (m : List (String × Notice))
    (hm : ∀ p ∈ m, p.2.id = p.1) :
    ∀ p ∈ l.foldl (fun acc item => mapSet acc item.id item) m, p.2.id = p.1 := by
  induction l generalizing m with
  | nil => exact hm
  | cons n l ih =>
    rw [List.foldl_cons]
    exact ih (mapSet m n.id n) (mapSet_keyval m n.id n hm rfl)

/-- In a map with distinct keys, looking up the key of a present entry
finds that entry. -/
theorem find?_key_self (m : List (String × Notice))
    (hm : (m.map (fun p => p.1)).Nodup) (p : String × Notice) (hp : p ∈ m) :
    m.find? (fun q => decide (q.1 = p.1)) = some p := by
  induction m with
  | nil => cases hp
  | cons q m ih =>
    have hm2 : (q.1 :: m.map (fun r => r.1)).Nodup := by
      rw [List.map_cons] at hm
      exact hm
    have hm3 := List.nodup_cons.mp hm2
    rcases List.mem_cons.mp hp with rfl | hp2
    · exact List.find?_cons_of_pos _ (by simp)
    · have hq : ¬ q.1 = p.1 := by
        intro hEq
        exact hm3.1 (hEq ▸ List.mem_map_of_mem _ hp2)
      rw [List.find?_cons_of_neg _ (by simpa using hq)]
      exact ih hm3.2 hp2

/-- C3: the merged-deduplicated fetch output has pairwise-distinct ids,
every output notice's id occurs in one of the two source lists, and each
kept record is the last occurrence of its id in merge order (news list then
exam list). -/
theorem fetchNotices_dedup_spec (news exam : List Notice) :
    ((fetchNotices news exam).map (fun n => n.id)).Nodup ∧
    (∀ x ∈ fetchNotices news exam,
      x.id ∈ (news ++ exam).map (fun n => n.id)) ∧
    (∀ x ∈ fetchNotices news exam,
      (news ++ exam).reverse.find? (fun y => y.id = x.id) = some x) := by
  have hfetch : fetchNotices news exam =
      ((news ++ exam).foldl (fun acc item => mapSet acc item.id item) []).map
        (fun p => p.2) := rfl
  have hkeysnd : (((news ++ exam).foldl (fun acc item => mapSet acc item.id item)
      []).map (fun p => p.1)).Nodup :=
    foldl_mapSet_keys_nodup (news ++ exam) [] (by simp)
  have hkv : ∀ p ∈ (news ++ exam).foldl (fun acc item => mapSet acc item.id item) [],
      p.2.id = p.1 :=
    foldl_mapSet_keyval (news ++ exam) [] (by simp)
  have hlast : ∀ x ∈ fetchNotices news exam,
      (news ++ exam).reverse.find? (fun y => y.id = x.id) = some x := by
    intro x hx
    rw [hfetch] at hx
    rcases List.mem_map.mp hx with ⟨p, hpF, hpx⟩
    have hfind := find?_key_self _ hkeysnd p hpF
    have hfold := lookupK_foldl_mapSet (news ++ exam) [] p.1
    rw [show lookupK [] p.1 = none from rfl] at hfold
    rw [show lookupK ((news ++ exam).foldl (fun acc item => mapSet acc item.id item)
        []) p.1 = List.find? (fun q => decide (q.1 = p.1))
          ((news ++ exam).foldl (fun acc item => mapSet acc item.id item) [])
        from rfl] at hfold
    rw [hfind] at hfold
    cases hrev : (news ++ exam).reverse.find? (fun item => decide (item.id = p.1)) with
    | none =>
      rw [hrev] at hfold
      cases hfold
    | some y =>
      rw [hrev] at hfold
      have hpy : p = (p.1, y) := Option.some.inj hfold
      have hid : p.1 = x.id := by
        rw [← hpx]
        exact (hkv p hpF).symm
      rw [← hid, hrev, ← hpx, hpy]
  refine ⟨?_, ?_, hlast⟩
  · rw [hfetch, List.map_map]
    have hmaps : ((news ++ exam).foldl (fun acc item => mapSet acc item.id item)
        []).map ((fun n => n.id) ∘ (fun p => p.2)) =
        ((news ++ exam).foldl (fun acc item => mapSet acc item.id item) []).map
          (fun p => p.1) :=
      List.map_congr_left (fun p hp => hkv p hp)
    rw [hmaps]
    exact hkeysnd
  · intro x hx
    have h := hlast x hx
    have hxmem : x ∈ (news ++ exam).reverse := List.mem_of_find?_eq_some h
    exact List.mem_map_of_mem _ (List.mem_reverse.mp hxmem)

/-- Witness for C3: with id 7 fetched from both sources, the survivor is
the exam-list (last) occurrence. -/
theorem fetchNotices_dedup_spec_witness :
    ([nDup1] ++ [nDup2]).reverse.find? (fun y => y.id = nDup2.id) = some nDup2 :=
  (fetchNotices_dedup_spec [nDup1] [nDup2]).2.2 nDup2 (by decide)

/-! Helper lemmas for the sort step. -/

/-- Inserting into the sorted accumulator permutes consing. -/
theorem insertByDate_perm (n : Notice) (l : List Notice) :
    (insertByDate n l).Perm (n :: l) := by
  induction l with
  | nil => exact List.Perm.refl _
  | cons m rest ih =>
    unfold insertByDate
    split
    · exact (ih.cons m).trans (List.Perm.swap n m rest)
    · exact List.Perm.refl _

/-- The date sort permutes its input. -/
theorem sortByDate_perm (l : List Notice) : (sortByDate l).Perm l := by
  have h : ∀ acc : List Notice,
      (l.foldl (fun acc n => insertByDate n acc) acc).Perm (acc ++ l) := by
    induction l with
    | nil => intro acc; simp
    | cons n rest ih =>
      intro acc
      rw [List.foldl_cons]
      have h1 := ih (insertByDate n acc)
      have h2 : (insertByDate n acc ++ rest).Perm ((n :: acc) ++ rest) :=
        (insertByDate_perm n acc).append_right rest
      have h3 : ((n :: acc) ++ rest).Perm (acc ++ n :: rest) :=
        List.perm_middle.symm
      exact (h1.trans h2).trans h3
  simpa using h []

/-! Views of the orchestrator's intermediate values, used to state the
run-level theorems. -/

/-- A successful bulk save appends the mapped records to the store. -/
theorem saveSentNotices_success_store (st : PersistState) (ns : List Notice)
    (hne : ns ≠ []) :
    (st.saveSentNotices ns .success).store = st.store ++ ns.map mkRecord := by
  unfold PersistState.saveSentNotices
  rw [if_neg (by simpa [List.length_eq_zero] using hne)]

/-- Unfolding of `run` on a seed-mode environment with working init and
fetch. -/
theorem run_seed_eq (env : Env) (newsData examData : List Notice)
    (hinit : env.initOk = true) (hn : env.news = some newsData)
    (he : env.exam = some examData) (hseed : env.seedMode = true) :
    NoticeMonitor.run env =
      { exit := none, cleanupRan := true, notifyInvoked := false,
        emailSent := false, relevantComputed := false,
        saveInvoked := (seedList env newsData examData).length > 0,
        finalStore :=
          (if (seedList env newsData examData).length > 0 then
            PersistState.saveSentNotices (preStateOf env newsData examData)
              (seedList env newsData examData) env.saveOutcome
          else preStateOf env newsData examData).store } := by
  unfold NoticeMonitor.run
  rw [hinit, hn, he, hseed]
  rfl

/-- Unfolding of `run` on a normal-mode environment with working init and
fetch. -/
theorem run_normal_eq (env : Env) (newsData examData : List Notice)
    (hinit : env.initOk = true) (hn : env.news = some newsData)
    (he : env.exam = some examData) (hseed : env.seedMode = false) :
    NoticeMonitor.run env =
      (if 0 < (relevantOf env newsData examData).length then
        if env.sendOk = true then
          { exit := none, cleanupRan := true, notifyInvoked := true,
            emailSent := true, relevantComputed := true,
            saveInvoked := !env.testMode,
            finalStore :=
              (if (!env.testMode) = true then
                PersistState.saveSentNotices (preStateOf env newsData examData)
                  (relevantOf env newsData examData) env.saveOutcome
              else preStateOf env newsData examData).store }
        else
          { exit := some 1, cleanupRan := false, notifyInvoked := true,
            emailSent := false, relevantComputed := true, saveInvoked := false,
            finalStore := (preStateOf env newsData examData).store }
      else
        { exit := none, cleanupRan := true, notifyInvoked := false,
          emailSent := false, relevantComputed := true, saveInvoked := false,
          finalStore := (preStateOf env newsData examData).store }) := by
  unfold NoticeMonitor.run
  rw [hinit, hn, he, hseed]
  rfl

/-! Helper lemmas for the filter chain. -/

/-- The strategy loop computes the conjunction of all checks. -/
theorem checkAll_eq_all (ss : List (Notice → Bool)) (n : Notice) :
    checkAll ss n = ss.all (fun s => s n) := by
  induction ss with
  | nil => rfl
  | cons s rest ih =>
    unfold checkAll
    cases h : s n <;> simp [List.all_cons, h, ih]

/-- `applyFilters` is the list filter by the conjunction of the strategy
checks. -/
theorem applyFilters_eq_filter (ss : List (Notice → Bool)) (ns : List Notice) :
    applyFilters ss ns = ns.filter (fun n => checkAll ss n) := by
  induction ns with
  | nil => rfl
  | cons n rest ih =>
    unfold applyFilters
    cases h : checkAll ss n <;> simp [List.filter_cons, h, ih]

/-- With all earlier strategies accepting and strategy `s` rejecting, the
loop invokes exactly the strategies up to and including `s`. -/
theorem checkAllCount_first_reject (pre post : List (Notice → Bool))
    (s : Notice → Bool) (n : Notice)
    (hpre : ∀ f ∈ pre, f n = true) (hs : s n = false) :
    (checkAllCount (pre ++ s :: post) n).2 = pre.length + 1 := by
  induction pre with
  | nil => simp [checkAllCount, hs]
  | cons f rest ih =>
    have hf : f n = true := hpre f (List.mem_cons_self f rest)
    have ihr := ih (fun g hg => hpre g (List.mem_cons_of_mem f hg))
    simp [checkAllCount, hf, ihr]

/-- With every strategy accepting, the loop invokes all of them. -/
theorem checkAllCount_all_accept (ss : List (Notice → Bool)) (m : Notice)
    (hall : ∀ f ∈ ss, f m = true) :
    (checkAllCount ss m).2 = ss.length := by
  induction ss with
  | nil => rfl
  | cons f rest ih =>
    have hf : f m = true := hall f (List.mem_cons_self f rest)
    have ihr := ih (fun g hg => hall g (List.mem_cons_of_mem f hg))
    simp [checkAllCount, hf, ihr]

/-- C4: a notice is in the relevant set iff it is in the input and every
configured filter approves it; per notice the loop stops at the first
rejecting filter (exactly the filters up to and including it are invoked,
all of them when none rejects); and any permutation of the filter list
yields the same relevant set. -/
theorem applyFilters_chain_spec (ss ss2 : List (Notice → Bool)) (ns : List Notice)
    (pre post : List (Notice → Bool)) (s : Notice → Bool) (n m : Notice)
    (hperm : ss.Perm ss2)
    (hpre : ∀ f ∈ pre, f n = true) (hs : s n = false)
    (hall : ∀ f ∈ ss, f m = true) :
    (∀ x, x ∈ applyFilters ss ns ↔ x ∈ ns ∧ ∀ f ∈ ss, f x = true) ∧
    applyFilters ss ns = applyFilters ss2 ns ∧
    (checkAllCount (pre ++ s :: post) n).2 = pre.length + 1 ∧
    (checkAllCount ss m).2 = ss.length := by
  refine ⟨?_, ?_, checkAllCount_first_reject pre post s n hpre hs,
    checkAllCount_all_accept ss m hall⟩
  · intro x
    rw [applyFilters_eq_filter, List.mem_filter, checkAll_eq_all, List.all_eq_true]
  · rw [applyFilters_eq_filter, applyFilters_eq_filter]
    apply List.filter_congr
    intro x _
    rw [checkAll_eq_all, checkAll_eq_all, Bool.eq_iff_iff,
      List.all_eq_true, List.all_eq_true]
    exact ⟨fun h f hf => h f (hperm.mem_iff.mpr hf),
           fun h f hf => h f (hperm.mem_iff.mp hf)⟩

/-- Witness for C4: a rejecting first filter stops the loop after one
invocation; an all-accepting two-filter chain invokes both. -/
theorem applyFilters_chain_spec_witness :
    (checkAllCount [predReject, predAccept] nA).2 = 1 ∧
    (checkAllCount [predAccept, predAccept] nA).2 = 2 :=
  let h := applyFilters_chain_spec [predAccept, predAccept] [predAccept, predAccept]
    [nA] [] [predAccept] predReject nA nA (List.Perm.refl _)
    (by intro f hf; simp at hf) rfl
    (by intro f hf
        rcases List.mem_cons.mp hf with h1 | h2
        · rw [h1]; rfl
        · rcases List.mem_cons.mp h2 with h3 | h4
          · rw [h3]; rfl
          · cases h4)
  ⟨h.2.2.1, h.2.2.2⟩

/-- C8: in seed mode with working init, fetch and store, the run sends no
email, never invokes the filter chain, persists exactly the fetched notices
whose ids are not already known, and terminates normally. -/
theorem run_seed_mode_spec (env : Env) (newsData examData : List Notice)
    (hinit : env.initOk = true) (hn : env.news = some newsData)
    (he : env.exam = some examData) (hseed : env.seedMode = true)
    (hsave : env.saveOutcome = BulkInsertOutcome.success) :
    (NoticeMonitor.run env).emailSent = false ∧
    (NoticeMonitor.run env).notifyInvoked = false ∧
    (NoticeMonitor.run env).relevantComputed = false ∧
    (NoticeMonitor.run env).exit = none ∧
    (NoticeMonitor.run env).finalStore =
      env.store ++ (seedList env newsData examData).map mkRecord ∧
    (seedList env newsData examData).Perm
      ((fetchNotices newsData examData).filter
        (fun n => !((preStateOf env newsData examData).existingIds.contains n.id))) := by
  rw [run_seed_eq env newsData examData hinit hn he hseed]
  refine ⟨rfl, rfl, rfl, rfl, ?_, ?_⟩
  · by_cases hlen : (seedList env newsData examData).length > 0
    · rw [if_pos hlen, hsave,
        saveSentNotices_success_store _ _
          (by simpa [← List.length_pos] using hlen)]
      rw [show (preStateOf env newsData examData).store = env.store from
        preload_store _ _]
    · rw [if_neg hlen]
      have hnil : seedList env newsData examData = [] := by
        rcases List.eq_nil_or_concat (seedList env newsData examData) with h | ⟨l, x, h⟩
        · exact h
        · exact absurd (by rw [h]; simp) hlen
      rw [hnil, List.map_nil, List.append_nil]
      exact preload_store _ _
  · exact (sortByDate_perm (fetchNotices newsData examData)).filter _

/-- Witness for C8: seed mode over two not-yet-known notices gains exactly
two records, sends nothing, and never computes the relevant set. -/
theorem run_seed_mode_spec_witness :
    (NoticeMonitor.run envSeed).emailSent = false ∧
    (NoticeMonitor.run envSeed).relevantComputed = false ∧
    (NoticeMonitor.run envSeed).finalStore =
      envSeed.store ++ (seedList envSeed [nFresh] [nA]).map mkRecord ∧
    (NoticeMonitor.run envSeed).finalStore.length = 2 :=
  let h := run_seed_mode_spec envSeed [nFresh] [nA] rfl rfl rfl rfl rfl
  ⟨h.1, h.2.2.1, h.2.2.2.2.1, by decide⟩

/-- C7: when the delivery of a non-empty relevant set fails, the error is
fatal (exit 1), the save step is never reached, and the persisted store is
unchanged by the run. -/
theorem run_failed_send_spec (env : Env) (newsData examData : List Notice)
    (hinit : env.initOk = true) (hn : env.news = some newsData)
    (he : env.exam = some examData) (hseed : env.seedMode = false)
    (hsend : env.sendOk = false)
    (hrel : relevantOf env newsData examData ≠ []) :
    (NoticeMonitor.run env).notifyInvoked = true ∧
    (NoticeMonitor.run env).saveInvoked = false ∧
    (NoticeMonitor.run env).finalStore = env.store ∧
    (NoticeMonitor.run env).emailSent = false ∧
    (NoticeMonitor.run env).exit = some 1 := by
  rw [run_normal_eq env newsData examData hinit hn he hseed]
  rw [if_pos (List.length_pos.mpr hrel)]
  rw [if_neg (show ¬ env.sendOk = true by rw [hsend]; simp)]
  exact ⟨rfl, rfl, preload_store _ _, rfl, rfl⟩

/-- Witness for C7: the failed-send run leaves the store unchanged and
exits with failure. -/
theorem run_failed_send_spec_witness :
    (NoticeMonitor.run envSendFailC7).saveInvoked = false ∧
    (NoticeMonitor.run envSendFailC7).finalStore = envSendFailC7.store ∧
    (NoticeMonitor.run envSendFailC7).exit = some 1 :=
  let h := run_failed_send_spec envSendFailC7 [nFresh] [] rfl rfl rfl rfl rfl
    (by decide)
  ⟨h.2.1, h.2.2.1, h.2.2.2.2⟩

/-- C9: running the normal-mode pipeline twice in succession with
identical upstream responses, the first run's send and save succeeding, and
a clock that does not move backwards, the second run's relevant set is
empty: its persistence check rejects everything recorded by the first run,
notify is not invoked, and no email is sent. -/
theorem run_second_run_idle (env : Env) (newsData examData : List Notice)
    (now2 : Int)
    (hinit : env.initOk = true) (hn : env.news = some newsData)
    (he : env.exam = some examData) (hseed : env.seedMode = false)
    (htest : env.testMode = false) (hsend : env.sendOk = true)
    (hsave : env.saveOutcome = BulkInsertOutcome.success)
    (hnow : env.now ≤ now2) :
    relevantOf (envSecond env (NoticeMonitor.run env).finalStore now2) newsData examData = [] ∧
    (NoticeMonitor.run (envSecond env (NoticeMonitor.run env).finalStore now2)).notifyInvoked = false ∧
    (NoticeMonitor.run (envSecond env (NoticeMonitor.run env).finalStore now2)).emailSent = false ∧
    (NoticeMonitor.run (envSecond env (NoticeMonitor.run env).finalStore now2)).exit = none := by
  have hrun1 := run_normal_eq env newsData examData hinit hn he hseed
  have hstore_pos : 0 < (relevantOf env newsData examData).length →
      (NoticeMonitor.run env).finalStore =
        env.store ++ (relevantOf env newsData examData).map mkRecord := by
    intro hlen
    rw [hrun1, if_pos hlen, if_pos hsend]
    dsimp only
    rw [if_pos (show (!env.testMode) = true by simp [htest]), hsave,
      saveSentNotices_success_store _ _ (List.length_pos.mp hlen),
      show (preStateOf env newsData examData).store = env.store from
        preload_store _ _]
  have hstore_zero : ¬ 0 < (relevantOf env newsData examData).length →
      (NoticeMonitor.run env).finalStore = env.store := by
    intro hlen
    rw [hrun1, if_neg hlen]
    dsimp only
    exact preload_store _ _
  have store2_sup : ∀ x ∈ env.store, x ∈ (NoticeMonitor.run env).finalStore := by
    intro x hx
    by_cases hlen : 0 < (relevantOf env newsData examData).length
    · rw [hstore_pos hlen]
      exact List.mem_append_left _ hx
    · rw [hstore_zero hlen]
      exact hx
  have hkey : ∀ n, n ∈ sortByDate (fetchNotices newsData examData) →
      (TimeFilterStrategy.construct now2 env.ageLimitHours).check n = true →
      ∃ d, d ∈ (NoticeMonitor.run env).finalStore ∧ d.noticeId = n.id := by
    intro n hnA htime2
    have htime1 : (TimeFilterStrategy.construct env.now env.ageLimitHours).check
        n = true := by
      simp only [TimeFilterStrategy.check, TimeFilterStrategy.construct,
        decide_eq_true_eq] at htime2 ⊢
      omega
    by_cases hknown : (preStateOf env newsData examData).check n = true
    · have hmemrel : n ∈ relevantOf env newsData examData := by
        rw [relevantOf, applyFilters_eq_filter, List.mem_filter]
        refine ⟨hnA, ?_⟩
        rw [checkAll_eq_all]
        apply List.all_eq_true.mpr
        intro f hf
        rw [strategiesOf, if_neg (by rw [htest]; simp)] at hf
        rcases List.mem_cons.mp hf with rfl | hf2
        · exact htime1
        · rcases List.mem_cons.mp hf2 with rfl | hf3
          · exact hknown
          · cases hf3
      have hlen : 0 < (relevantOf env newsData examData).length :=
        List.length_pos.mpr (List.ne_nil_of_mem hmemrel)
      refine ⟨mkRecord n, ?_, rfl⟩
      rw [hstore_pos hlen]
      exact List.mem_append_right _ (List.mem_map_of_mem _ hmemrel)
    · have hcont : (preStateOf env newsData examData).existingIds.contains
          n.id = true := by
        unfold PersistState.check at hknown
        rcases Bool.eq_false_or_eq_true
          ((preStateOf env newsData examData).existingIds.contains n.id) with h | h
        · exact h
        · exact absurd (by rw [h]; rfl) hknown
      have hmemids : n.id ∈ (preStateOf env newsData examData).existingIds :=
        List.elem_iff.mp hcont
      rw [show preStateOf env newsData examData =
          PersistState.preload { existingIds := [], store := env.store }
            (sortByDate (fetchNotices newsData examData)) from rfl,
        preload_existingIds _ _ (List.ne_nil_of_mem hnA)] at hmemids
      rcases List.mem_map.mp hmemids with ⟨d, hd, hdid⟩
      exact ⟨d, store2_sup d (List.mem_filter.mp hd).1, hdid⟩
  have hrel2 : relevantOf (envSecond env (NoticeMonitor.run env).finalStore now2) newsData examData = [] := by
    rw [relevantOf, applyFilters_eq_filter]
    apply List.filter_eq_nil_iff.mpr
    intro n hnA
    intro hall
    have hallc : (strategiesOf (envSecond env (NoticeMonitor.run env).finalStore now2)
        newsData examData).all (fun s => s n) = true := by
      rw [← checkAll_eq_all]
      exact hall
    have hall2 := List.all_eq_true.mp hallc
    have htime2 := hall2 _ (by
      rw [strategiesOf, if_neg (by simp [envSecond, htest])]
      exact List.mem_cons_self _ _)
    have hpers2 := hall2 _ (by
      rw [strategiesOf, if_neg (by simp [envSecond, htest])]
      exact List.mem_cons_of_mem _ (List.mem_cons_self _ _))
    rcases hkey n hnA htime2 with ⟨d, hd, hdid⟩
    have hcheckfalse : (preStateOf (envSecond env (NoticeMonitor.run env).finalStore now2)
        newsData examData).check n = false := by
      unfold PersistState.check
      rw [show preStateOf (envSecond env (NoticeMonitor.run env).finalStore now2)
            newsData examData =
          PersistState.preload
            (PersistState.mk [] (NoticeMonitor.run env).finalStore)
            (sortByDate (fetchNotices newsData examData)) from rfl,
        preload_existingIds _ _ (List.ne_nil_of_mem hnA)]
      have hidin : ((sortByDate (fetchNotices newsData examData)).map
          (fun m => m.id)).contains d.noticeId = true := by
        rw [hdid]
        exact List.elem_iff.mpr (List.mem_map_of_mem _ hnA)
      have hdfil : d ∈ (NoticeMonitor.run env).finalStore.filter
          (fun doc => ((sortByDate (fetchNotices newsData examData)).map
            (fun m => m.id)).contains doc.noticeId) :=
        List.mem_filter.mpr ⟨hd, hidin⟩
      have hin : (((NoticeMonitor.run env).finalStore.filter
          (fun doc => ((sortByDate (fetchNotices newsData examData)).map
            (fun m => m.id)).contains doc.noticeId)).map
          (fun doc => doc.noticeId)).contains n.id = true := by
        apply List.elem_iff.mpr
        rw [← hdid]
        exact List.mem_map_of_mem _ hdfil
      rw [hin]
      rfl
    have hp : (preStateOf (envSecond env (NoticeMonitor.run env).finalStore now2)
        newsData examData).check n = true := hpers2
    rw [hcheckfalse] at hp
    exact Bool.false_ne_true hp
  have hrun2 := run_normal_eq (envSecond env (NoticeMonitor.run env).finalStore now2)
    newsData examData hinit hn he hseed
  have hlen2 : ¬ 0 < (relevantOf (envSecond env (NoticeMonitor.run env).finalStore now2)
      newsData examData).length := by
    rw [hrel2]
    simp
  refine ⟨hrel2, ?_, ?_, ?_⟩
  · rw [hrun2, if_neg hlen2]
  · rw [hrun2, if_neg hlen2]
  · rw [hrun2, if_neg hlen2]

/-- Witness for C9: the first run sends the notice; rerunning on the
resulting store sends nothing. -/
theorem run_second_run_idle_witness :
    (NoticeMonitor.run envTwice).emailSent = true ∧
    (NoticeMonitor.run (envSecond envTwice (NoticeMonitor.run envTwice).finalStore 5)).emailSent
        = false :=
  let h := run_second_run_idle envTwice [nFresh] [] 5 rfl rfl rfl rfl rfl rfl rfl
    (by decide)
  ⟨by decide, h.2.2.1⟩

end CollegeNotify
